import Mathlib

/-!
Shallow embedding of the certstream-slack pipeline (main.go).

The program is a single blocking loop: read a JSON message from the
certstream websocket, classify it by `message_type`, extract the leaf
certificate's `all_domains` and `fingerprint`, filter the domains by the
configured regular expression, and post one Slack message per matching
event.  The embedding below models one iteration of that loop as a pure
function from a decoded event to an outcome (notification text plus which
recoverable errors were logged), and the startup sequence as a pure
function of the configuration values.

The domain regular expression is modelled as an abstract predicate
`String → Bool` (the program only ever calls `domainRegex.MatchString`);
for concrete examples a substring matcher models a literal pattern such
as `heptio`.
-/

/-- A decoded `leaf_cert` record as consumed by main.go: the field lookups
`jq.ArrayOfStrings("data","leaf_cert","all_domains")` and
`jq.String("data","leaf_cert","fingerprint")` can each fail, which is
modelled by `Option` (`none` = the jsonq lookup returned an error). -/
structure LeafCert where
  all_domains : Option (List String)
  fingerprint : Option String
deriving Repr, DecidableEq

/-- A decoded feed event as consumed by main.go.  Only `message_type` and
the nested leaf certificate are read; `none` for `message_type` models a
failing `jq.String("message_type")` lookup, which in Go yields the zero
value `""` (the error is discarded at line 72 of main.go). -/
structure FeedEvent where
  message_type : Option String
  leaf_cert : LeafCert
deriving Repr, DecidableEq

/-- main.go line 90: each matching domain is wrapped in backticks. -/
def decorate (d : String) : String := "`" ++ d ++ "`"

/-- main.go lines 84-91: the loop collecting matching domains, each
decorated with backticks, preserving input order. -/
def collectMatches (p : String → Bool) : List String → List String
  | [] => []
  | d :: rest =>
    if p d then decorate d :: collectMatches p rest else collectMatches p rest

/-- Lexicographic comparison of character sequences by code point, the
order `sort.Strings` uses on Go strings (byte order on UTF-8 agrees with
code-point order). -/
def listLe : List Char → List Char → Bool
  | [], _ => true
  | _ :: _, [] => false
  | a :: as, b :: bs =>
    if a.toNat = b.toNat then listLe as bs
    else decide (a.toNat < b.toNat)

/-- Lexicographic `≤` on strings as compared by `sort.Strings`. -/
def strLe (a b : String) : Bool := listLe a.data b.data

/-- main.go line 99: `sort.Strings(matches)` sorts the decorated matches
ascending lexicographically.  Go's sort on strings is modelled by
insertion sort with the lexicographic order `strLe`. -/
def sortStrings (xs : List String) : List String :=
  List.insertionSort (fun a b => strLe a b = true) xs

/-- main.go line 103: `additionalDomains := len(domains) - len(matches)`. -/
def additionalCount (p : String → Bool) (domains : List String) : Nat :=
  domains.length - (collectMatches p domains).length

/-- main.go lines 99-106: the final sequence of entries the notification
text is built from: the sorted decorated matches, followed by a synthetic
"<N-M> others" entry when some domains did not match. -/
def domainSeries (p : String → Bool) (domains : List String) : List String :=
  let sorted := sortStrings (collectMatches p domains)
  if additionalCount p domains > 0 then
    sorted ++ [Nat.repr (additionalCount p domains) ++ " others"]
  else
    sorted

/-- `english.OxfordWordSeries` from github.com/dustin/go-humanize, as called
at main.go line 119: one word alone; two words joined by the conjunction;
three or more words comma-separated with the conjunction (after a serial
comma) before the last. -/
def oxfordWordSeries (words : List String) (conjunction : String) : String :=
  match words with
  | [] => ""
  | [w] => w
  | [w1, w2] => w1 ++ " " ++ conjunction ++ " " ++ w2
  | ws =>
    String.intercalate ", " ws.dropLast ++ ", " ++ conjunction ++ " " ++
      ws.getLastD ""

/-- main.go line 113: `strings.Replace(fingerprint, ":", "", -1)` removes
every colon from the fingerprint. -/
def stripColons (s : String) : String :=
  String.mk (s.data.filter (fun c => !(c = ':')))

/-- main.go line 113: the crt.sh lookup URL built from the fingerprint. -/
def certURL (fingerprint : String) : String :=
  "https://crt.sh/?q=" ++ stripColons fingerprint

/-- main.go lines 109-112: `jq.String("data","leaf_cert","fingerprint")`.
On failure jsonq returns the zero value `""` together with an error, which
main.go logs without aborting; the Bool records whether that error was
logged. -/
def extractFingerprint (ev : FeedEvent) : String × Bool :=
  match ev.leaf_cert.fingerprint with
  | some f => (f, false)
  | none => ("", true)

/-- main.go lines 116-122: the Slack payload text. -/
def notificationText (series : List String) (fingerprint : String) : String :=
  "Found matching certificate for " ++ oxfordWordSeries series "and" ++
    ": " ++ certURL fingerprint

/-- The outcome of handling one decoded event inside the loop body
(main.go lines 69-125): silently skipped by the classifier, abandoned with
a logged "couldn't get domains" error, dropped because no domain matched,
or a notification sent (with a flag recording whether a fingerprint
extraction error was logged). -/
inductive Outcome where
  | skipped
  | domainsFailed
  | noMatch
  | sent (text : String) (fpErrLogged : Bool)
deriving Repr, DecidableEq

/-- The notifications posted to Slack for this event (zero or one). -/
def Outcome.notifications : Outcome → List String
  | .sent t _ => [t]
  | _ => []

/-- Whether handling this event logged a recoverable error
(`couldn't get domains` or `could not parse fingerprint`). -/
def Outcome.logsError : Outcome → Bool
  | .domainsFailed => true
  | .sent _ b => b
  | _ => false

/-- main.go lines 69-125: one pass of the loop body over a decoded event.
`p` is `domainRegex.MatchString`. -/
def handleEvent (p : String → Bool) (ev : FeedEvent) : Outcome :=
  if ev.message_type.getD "" ≠ "certificate_update" then .skipped
  else
    match ev.leaf_cert.all_domains with
    | none => .domainsFailed
    | some domains =>
      if collectMatches p domains = [] then .noMatch
      else
        let fp := extractFingerprint ev
        .sent (notificationText (domainSeries p domains) fp.1) fp.2

/-- The result of the startup sequence, main.go lines 38-57: each `Fatal`
call terminates the process; otherwise the loop runs with the compiled
matcher. -/
inductive StartupResult where
  | fatalMissingConfig
  | fatalBadPattern
  | fatalConnectFailed
  | running (matcher : String → Bool)

/-- Whether startup terminated the process. -/
def StartupResult.isFatal : StartupResult → Bool
  | .running _ => false
  | _ => true

/-- main.go lines 38-57: check `SLACK_WEBHOOK_URL`, check `DOMAIN_PATTERN`,
compile the pattern, dial the websocket.  `compile` models
`regexp.Compile` (`none` = compilation error), `connectOk` models whether
the websocket dial succeeded.  An unset environment variable reads as `""`
in Go, so "missing configuration" is an empty string. -/
def startup (compile : String → Option (String → Bool))
    (webhookURL domainPattern : String) (connectOk : Bool) : StartupResult :=
  if webhookURL = "" then .fatalMissingConfig
  else if domainPattern = "" then .fatalMissingConfig
  else
    match compile domainPattern with
    | none => .fatalBadPattern
    | some m => if connectOk then .running m else .fatalConnectFailed

/-- The result of one full loop iteration, main.go lines 62-126: a decode
failure of `conn.ReadJSON` is fatal (`log.Fatalf`, line 67); otherwise the
loop continues, having delivered the listed notifications and logged the
counted recoverable errors. -/
inductive StepResult where
  | fatalDecode
  | next (delivered : List String) (errorLogCount : Nat)
deriving Repr, DecidableEq

/-- One full loop iteration.  `msg` is the result of `conn.ReadJSON`
(`none` = decode error, fatal).  `deliveryErrors` is the list of errors
returned by `slack.Send` (main.go lines 123-125): each is logged and the
loop continues. -/
def runIteration (p : String → Bool) (msg : Option FeedEvent)
    (deliveryErrors : List String) : StepResult :=
  match msg with
  | none => .fatalDecode
  | some ev =>
    match handleEvent p ev with
    | .sent text fpErr =>
      .next [text] ((if fpErr then 1 else 0) + deliveryErrors.length)
    | .domainsFailed => .next [] 1
    | .skipped => .next [] 0
    | .noMatch => .next [] 0

/-- Substring containment on strings, modelling what the Go regular
expression `heptio` (a literal with no metacharacters) matches. -/
def chunkLeads : List Char → List Char → Bool
  | [], _ => true
  | _ :: _, [] => false
  | a :: as, b :: bs => a = b && chunkLeads as bs

/-- `containsChunk pat l` is true when `pat` occurs contiguously in `l`. -/
def containsChunk (pat : List Char) : List Char → Bool
  | [] => chunkLeads pat []
  | c :: cs => chunkLeads pat (c :: cs) || containsChunk pat cs

/-- `domainRegex.MatchString` for the literal pattern `heptio`. -/
def heptioPattern (d : String) : Bool :=
  containsChunk "heptio".data d.data

/-- The worked example: a certificate-update event with domains
`["a.heptio.com","b.other.com","c.heptio.com"]` and fingerprint
`AA:BB:CC`. -/
def exampleEvent : FeedEvent :=
  { message_type := some "certificate_update"
    leaf_cert :=
      { all_domains := some ["a.heptio.com", "b.other.com", "c.heptio.com"]
        fingerprint := some "AA:BB:CC" } }

/-! ### Basic lemmas about the embedded operations -/

theorem listLe_total : ∀ as bs : List Char, listLe as bs = true ∨ listLe bs as = true
  | [], _ => Or.inl rfl
  | _ :: _, [] => Or.inr rfl
  | a :: as, b :: bs => by
    by_cases h : a.toNat = b.toNat
    · rcases listLe_total as bs with h1 | h1
      · exact Or.inl (by simp [listLe, h, h1])
      · exact Or.inr (by simp [listLe, h.symm, h1])
    · rcases Nat.lt_or_gt_of_ne h with hlt | hgt
      · exact Or.inl (by simp [listLe, h, hlt])
      · exact Or.inr (by simp [listLe, Ne.symm h, hgt])

theorem listLe_trans :
    ∀ {as bs cs : List Char}, listLe as bs = true → listLe bs cs = true →
      listLe as cs = true
  | [], _, _, _, _ => rfl
  | _ :: _, [], _, h1, _ => by simp [listLe] at h1
  | _ :: _, _ :: _, [], _, h2 => by simp [listLe] at h2
  | a :: as, b :: bs, c :: cs, h1, h2 => by
    simp only [listLe] at h1 h2 ⊢
    by_cases hab : a.toNat = b.toNat <;> by_cases hbc : b.toNat = c.toNat
    · rw [if_pos hab] at h1
      rw [if_pos hbc] at h2
      rw [if_pos (hab.trans hbc)]
      exact listLe_trans h1 h2
    · rw [if_neg hbc] at h2
      have hlt : a.toNat < c.toNat := by
        have := of_decide_eq_true h2; omega
      rw [if_neg (Nat.ne_of_lt hlt)]
      exact decide_eq_true hlt
    · rw [if_neg hab] at h1
      have hlt : a.toNat < c.toNat := by
        have := of_decide_eq_true h1; omega
      rw [if_neg (Nat.ne_of_lt hlt)]
      exact decide_eq_true hlt
    · rw [if_neg hab] at h1
      rw [if_neg hbc] at h2
      have hlt : a.toNat < c.toNat := by
        have h1' := of_decide_eq_true h1
        have h2' := of_decide_eq_true h2
        omega
      rw [if_neg (Nat.ne_of_lt hlt)]
      exact decide_eq_true hlt

instance : IsTotal String fun a b => strLe a b = true :=
  ⟨fun a b => listLe_total a.data b.data⟩

instance : IsTrans String fun a b => strLe a b = true :=
  ⟨fun _ _ _ h1 h2 => listLe_trans h1 h2⟩

/-- The sorted matches are sorted ascending by the lexicographic order. -/
theorem sortStrings_sorted (xs : List String) :
    List.Sorted (fun a b => strLe a b = true) (sortStrings xs) :=
  List.sorted_insertionSort _ xs

/-- Sorting permutes and keeps exactly the collected entries. -/
theorem sortStrings_perm (xs : List String) : List.Perm (sortStrings xs) xs :=
  List.perm_insertionSort _ xs

theorem collectMatches_length_le (p : String → Bool) :
    ∀ ds : List String, (collectMatches p ds).length ≤ ds.length
  | [] => Nat.le_refl 0
  | d :: rest => by
    cases hpd : p d
    · simp only [collectMatches, hpd, if_false, List.length_cons]
      exact Nat.le_succ_of_le (collectMatches_length_le p rest)
    · simp only [collectMatches, hpd, if_true, List.length_cons]
      exact Nat.succ_le_succ (collectMatches_length_le p rest)

theorem collectMatches_eq_nil_iff (p : String → Bool) :
    ∀ ds : List String, (collectMatches p ds = [] ↔ ∀ d ∈ ds, p d = false)
  | [] => by simp [collectMatches]
  | d :: rest => by
    cases hpd : p d
    · simp [collectMatches, hpd, collectMatches_eq_nil_iff p rest]
    · simp [collectMatches, hpd]

theorem mem_collectMatches (p : String → Bool) :
    ∀ {ds : List String} {m : String}, m ∈ collectMatches p ds →
      ∃ d, d ∈ ds ∧ p d = true ∧ m = decorate d
  | [], m, hm => by simp [collectMatches] at hm
  | d :: rest, m, hm => by
    cases hpd : p d
    · rw [collectMatches, hpd, if_neg (by simp)] at hm
      obtain ⟨e, he, hpe, hme⟩ := mem_collectMatches p hm
      exact ⟨e, List.mem_cons_of_mem d he, hpe, hme⟩
    · rw [collectMatches, hpd, if_pos rfl] at hm
      rcases List.mem_cons.mp hm with hmd | hm
      · exact ⟨d, List.mem_cons_self d rest, hpd, hmd⟩
      · obtain ⟨e, he, hpe, hme⟩ := mem_collectMatches p hm
        exact ⟨e, List.mem_cons_of_mem d he, hpe, hme⟩

theorem collectMatches_ne_nil (p : String → Bool) {ds : List String}
    (hm : ∃ d ∈ ds, p d = true) : collectMatches p ds ≠ [] := by
  intro hnil
  obtain ⟨d, hd, hpd⟩ := hm
  have := (collectMatches_eq_nil_iff p ds).mp hnil d hd
  rw [hpd] at this
  simp at this

/-- The series always splits as sorted matches followed by the optional
"others" entry. -/
theorem domainSeries_eq (p : String → Bool) (ds : List String) :
    domainSeries p ds =
      sortStrings (collectMatches p ds) ++
        (if additionalCount p ds > 0 then
          [Nat.repr (additionalCount p ds) ++ " others"]
        else []) := by
  by_cases h : additionalCount p ds > 0 <;> simp [domainSeries, h]

/-- With the classifier, extraction and match hypotheses satisfied, the
loop body reaches the Slack post with the expected text. -/
theorem handleEvent_sent (p : String → Bool) (ev : FeedEvent)
    (ds : List String)
    (hmt : ev.message_type.getD "" = "certificate_update")
    (hds : ev.leaf_cert.all_domains = some ds)
    (hne : collectMatches p ds ≠ []) :
    handleEvent p ev =
      Outcome.sent (notificationText (domainSeries p ds)
        (extractFingerprint ev).1) (extractFingerprint ev).2 := by
  simp [handleEvent, hmt, hds, hne]

theorem count_colon_stripColons (s : String) :
    List.count ':' (stripColons s).data = 0 := by
  rw [List.count_eq_zero]
  intro hmem
  have hmem' : ':' ∈ s.data.filter (fun c => !(c = ':')) := hmem
  have := List.mem_filter.mp hmem'
  simp at this

/-- The domains of the worked example. -/
def exampleDomains : List String :=
  ["a.heptio.com", "b.other.com", "c.heptio.com"]

/-- A certificate-update event none of whose domains match `heptio`. -/
def noMatchEvent : FeedEvent :=
  { message_type := some "certificate_update"
    leaf_cert := { all_domains := some ["x.com"], fingerprint := some "AA" } }

/-- A heartbeat event, skipped by the classifier. -/
def heartbeatEvent : FeedEvent :=
  { message_type := some "heartbeat"
    leaf_cert := { all_domains := none, fingerprint := none } }

/-! ### The claims -/

/-- Claim C1: for every decoded certificate_update event whose all_domains
list contains at least one domain matched by the configured pattern,
exactly one notification is sent for that event, and the domain portion of
the notification text lists the matched (backtick-decorated) domains in
ascending lexicographic order: the series is the sorted permutation of the
collected matches, followed only by the optional "others" entry. -/
theorem claim_C1 (p : String → Bool) (ev : FeedEvent) (ds : List String)
    (hmt : ev.message_type.getD "" = "certificate_update")
    (hds : ev.leaf_cert.all_domains = some ds)
    (hm : ∃ d ∈ ds, p d = true) :
    (handleEvent p ev).notifications =
      [notificationText (domainSeries p ds) (extractFingerprint ev).1]
    ∧ List.Sorted (fun a b => strLe a b = true)
        (sortStrings (collectMatches p ds))
    ∧ List.Perm (sortStrings (collectMatches p ds)) (collectMatches p ds)
    ∧ domainSeries p ds =
        sortStrings (collectMatches p ds) ++
          (if additionalCount p ds > 0 then
            [Nat.repr (additionalCount p ds) ++ " others"]
          else []) := by
  have hne := collectMatches_ne_nil p hm
  refine ⟨?_, sortStrings_sorted _, sortStrings_perm _, domainSeries_eq p ds⟩
  rw [handleEvent_sent p ev ds hmt hds hne]
  rfl

theorem claim_C1_witness :
    (exampleEvent.message_type.getD "" = "certificate_update"
      ∧ exampleEvent.leaf_cert.all_domains = some exampleDomains
      ∧ ∃ d ∈ exampleDomains, heptioPattern d = true)
    ∧ ((handleEvent heptioPattern exampleEvent).notifications =
        [notificationText (domainSeries heptioPattern exampleDomains)
          (extractFingerprint exampleEvent).1]
      ∧ List.Sorted (fun a b => strLe a b = true)
          (sortStrings (collectMatches heptioPattern exampleDomains))
      ∧ List.Perm (sortStrings (collectMatches heptioPattern exampleDomains))
          (collectMatches heptioPattern exampleDomains)
      ∧ domainSeries heptioPattern exampleDomains =
          sortStrings (collectMatches heptioPattern exampleDomains) ++
            (if additionalCount heptioPattern exampleDomains > 0 then
              [Nat.repr (additionalCount heptioPattern exampleDomains) ++
                " others"]
            else [])) :=
  ⟨⟨rfl, rfl, by decide⟩,
    claim_C1 heptioPattern exampleEvent exampleDomains rfl rfl (by decide)⟩

/-- Claim C2: for every matching certificate_update event with N total
domains of which M match: if M < N the notification's domain series
includes a synthetic entry reading "N-M others" placed after the M matched
entries, and if M = N no "others" entry is appended. -/
theorem claim_C2 (p : String → Bool) (ev : FeedEvent) (ds : List String)
    (hmt : ev.message_type.getD "" = "certificate_update")
    (hds : ev.leaf_cert.all_domains = some ds)
    (hm : collectMatches p ds ≠ []) :
    (handleEvent p ev).notifications =
      [notificationText (domainSeries p ds) (extractFingerprint ev).1]
    ∧ ((collectMatches p ds).length < ds.length →
        domainSeries p ds =
          sortStrings (collectMatches p ds) ++
            [Nat.repr (ds.length - (collectMatches p ds).length) ++
              " others"])
    ∧ ((collectMatches p ds).length = ds.length →
        domainSeries p ds = sortStrings (collectMatches p ds)) := by
  refine ⟨?_, ?_, ?_⟩
  · rw [handleEvent_sent p ev ds hmt hds hm]
    rfl
  · intro hlt
    have hpos : additionalCount p ds > 0 := Nat.sub_pos_of_lt hlt
    rw [domainSeries_eq, if_pos hpos]
    rfl
  · intro heq
    have hz : ¬ additionalCount p ds > 0 := by
      simp [additionalCount, heq]
    rw [domainSeries_eq, if_neg hz, List.append_nil]

theorem claim_C2_witness :
    (exampleEvent.message_type.getD "" = "certificate_update"
      ∧ exampleEvent.leaf_cert.all_domains = some exampleDomains
      ∧ collectMatches heptioPattern exampleDomains ≠ [])
    ∧ ((handleEvent heptioPattern exampleEvent).notifications =
        [notificationText (domainSeries heptioPattern exampleDomains)
          (extractFingerprint exampleEvent).1]
      ∧ ((collectMatches heptioPattern exampleDomains).length <
            exampleDomains.length →
          domainSeries heptioPattern exampleDomains =
            sortStrings (collectMatches heptioPattern exampleDomains) ++
              [Nat.repr (exampleDomains.length -
                  (collectMatches heptioPattern exampleDomains).length) ++
                " others"])
      ∧ ((collectMatches heptioPattern exampleDomains).length =
            exampleDomains.length →
          domainSeries heptioPattern exampleDomains =
            sortStrings (collectMatches heptioPattern exampleDomains))) :=
  ⟨⟨rfl, rfl, by decide⟩,
    claim_C2 heptioPattern exampleEvent exampleDomains rfl rfl (by decide)⟩

/-- Claim C3: for every certificate_update event in which no domain
matches the configured pattern (including an empty all_domains), no
notification is sent. -/
theorem claim_C3 (p : String → Bool) (ev : FeedEvent) (ds : List String)
    (hmt : ev.message_type.getD "" = "certificate_update")
    (hds : ev.leaf_cert.all_domains = some ds)
    (hnone : ∀ d ∈ ds, p d = false) :
    handleEvent p ev = Outcome.noMatch
    ∧ (handleEvent p ev).notifications = [] := by
  have hnil : collectMatches p ds = [] :=
    (collectMatches_eq_nil_iff p ds).mpr hnone
  have heq : handleEvent p ev = Outcome.noMatch := by
    simp [handleEvent, hmt, hds, hnil]
  exact ⟨heq, by rw [heq]; rfl⟩


theorem claim_C3_witness :
    (noMatchEvent.message_type.getD "" = "certificate_update"
      ∧ noMatchEvent.leaf_cert.all_domains = some ["x.com"]
      ∧ ∀ d ∈ ["x.com"], heptioPattern d = false)
    ∧ (handleEvent heptioPattern noMatchEvent = Outcome.noMatch
      ∧ (handleEvent heptioPattern noMatchEvent).notifications = []) :=
  ⟨⟨rfl, rfl, by decide⟩,
    claim_C3 heptioPattern noMatchEvent ["x.com"] rfl rfl (by decide)⟩

/-- Claim C4: for every decoded event whose message_type is missing or not
"certificate_update", the event is silently skipped: no notification, no
error log, and the iteration continues with no side effect. -/
theorem claim_C4 (p : String → Bool) (ev : FeedEvent) (errs : List String)
    (h : ev.message_type.getD "" ≠ "certificate_update") :
    handleEvent p ev = Outcome.skipped
    ∧ (handleEvent p ev).notifications = []
    ∧ (handleEvent p ev).logsError = false
    ∧ runIteration p (some ev) errs = StepResult.next [] 0 := by
  have heq : handleEvent p ev = Outcome.skipped := by
    simp [handleEvent, h]
  exact ⟨heq, by rw [heq]; rfl, by rw [heq]; rfl, by simp [runIteration, heq]⟩

theorem claim_C4_witness :
    heartbeatEvent.message_type.getD "" ≠ "certificate_update"
    ∧ (handleEvent heptioPattern heartbeatEvent = Outcome.skipped
      ∧ (handleEvent heptioPattern heartbeatEvent).notifications = []
      ∧ (handleEvent heptioPattern heartbeatEvent).logsError = false
      ∧ runIteration heptioPattern (some heartbeatEvent) [] =
          StepResult.next [] 0) :=
  ⟨by decide, claim_C4 heptioPattern heartbeatEvent [] (by decide)⟩

/-- Claim C5: for every notification sent, the lookup URL is the fixed
crt.sh template applied to the fingerprint with every colon removed, so
the URL contains exactly the template's scheme colon and no other. -/
theorem claim_C5 (fingerprint : String) :
    certURL fingerprint = "https://crt.sh/?q=" ++ stripColons fingerprint
    ∧ List.count ':' (stripColons fingerprint).data = 0
    ∧ List.count ':' (certURL fingerprint).data = 1 := by
  refine ⟨rfl, count_colon_stripColons fingerprint, ?_⟩
  rw [certURL, String.data_append, List.count_append,
    count_colon_stripColons fingerprint]
  decide

/-- The text main.go actually posts for the worked example. -/
def exampleText : String :=
  "Found matching certificate for `a.heptio.com`, `c.heptio.com`, " ++
    "and 1 others: https://crt.sh/?q=AABBCC"

/-- The ending the spec's example claims for the worked example. -/
def claimedEnding : String :=
  "`a.heptio.com` and `c.heptio.com` and 1 others: https://crt.sh/?q=AABBCC"

/-- The ending the code actually produces for the worked example. -/
def correctedEnding : String :=
  "`a.heptio.com`, `c.heptio.com`, and 1 others: https://crt.sh/?q=AABBCC"

/-- Claim C6 counterexample: on the spec's own worked example (domains
a.heptio.com, b.other.com, c.heptio.com; pattern heptio; fingerprint
AA:BB:CC) the posted text is
"Found matching certificate for `a.heptio.com`, `c.heptio.com`, and 1
others: https://crt.sh/?q=AABBCC" — OxfordWordSeries places a comma (and a
serial comma) between the three entries — so the text does not end with
the claimed "`a.heptio.com` and `c.heptio.com` and 1 others: ...". -/
theorem claim_C6_counterexample :
    handleEvent heptioPattern exampleEvent = Outcome.sent exampleText false
    ∧ List.isSuffixOf claimedEnding.data exampleText.data = false := by
  constructor
  · decide
  · decide

/-- Claim C6 (amended): the notification text is
"Found matching certificate for (series): (url)" where the series joins the
domain list comma-separated with the conjunction "and" (after a serial
comma) before the final item, two items joined by "and" alone, one item
rendered alone; for the worked example the text ends with
"`a.heptio.com`, `c.heptio.com`, and 1 others: https://crt.sh/?q=AABBCC". -/
theorem claim_C6_amended :
    (∀ w conj : String, oxfordWordSeries [w] conj = w)
    ∧ (∀ w1 w2 conj : String,
        oxfordWordSeries [w1, w2] conj = w1 ++ " " ++ conj ++ " " ++ w2)
    ∧ (∀ w1 w2 w3 conj : String,
        oxfordWordSeries [w1, w2, w3] conj =
          w1 ++ ", " ++ w2 ++ ", " ++ conj ++ " " ++ w3)
    ∧ handleEvent heptioPattern exampleEvent = Outcome.sent exampleText false
    ∧ exampleText =
        "Found matching certificate for " ++
          oxfordWordSeries (domainSeries heptioPattern exampleDomains) "and" ++
          ": " ++ certURL "AA:BB:CC"
    ∧ List.isSuffixOf correctedEnding.data exampleText.data = true := by
  refine ⟨fun w conj => rfl, fun w1 w2 conj => rfl, fun w1 w2 w3 conj => rfl,
    by decide, by decide, by decide⟩

/-- Claim C7: for every matching certificate_update event where the
fingerprint extraction fails, the failure is logged as a recoverable error
but the notification is still sent, built with the empty fingerprint value
(so the lookup URL is the bare template). -/
theorem claim_C7 (p : String → Bool) (ev : FeedEvent) (ds : List String)
    (hmt : ev.message_type.getD "" = "certificate_update")
    (hds : ev.leaf_cert.all_domains = some ds)
    (hm : collectMatches p ds ≠ [])
    (hfp : ev.leaf_cert.fingerprint = none) :
    handleEvent p ev =
      Outcome.sent (notificationText (domainSeries p ds) "") true
    ∧ (handleEvent p ev).logsError = true
    ∧ (handleEvent p ev).notifications =
        [notificationText (domainSeries p ds) ""]
    ∧ certURL "" = "https://crt.sh/?q=" := by
  have hfp' : extractFingerprint ev = ("", true) := by
    simp [extractFingerprint, hfp]
  have heq := handleEvent_sent p ev ds hmt hds hm
  rw [hfp'] at heq
  exact ⟨heq, by rw [heq]; rfl, by rw [heq]; rfl, rfl⟩

/-- A matching certificate-update event whose fingerprint is missing. -/
def noFingerprintEvent : FeedEvent :=
  { message_type := some "certificate_update"
    leaf_cert :=
      { all_domains := some ["a.heptio.com"], fingerprint := none } }

theorem claim_C7_witness :
    (noFingerprintEvent.message_type.getD "" = "certificate_update"
      ∧ noFingerprintEvent.leaf_cert.all_domains = some ["a.heptio.com"]
      ∧ collectMatches heptioPattern ["a.heptio.com"] ≠ []
      ∧ noFingerprintEvent.leaf_cert.fingerprint = none)
    ∧ (handleEvent heptioPattern noFingerprintEvent =
        Outcome.sent
          (notificationText (domainSeries heptioPattern ["a.heptio.com"]) "")
          true
      ∧ (handleEvent heptioPattern noFingerprintEvent).logsError = true
      ∧ (handleEvent heptioPattern noFingerprintEvent).notifications =
          [notificationText (domainSeries heptioPattern ["a.heptio.com"]) ""]
      ∧ certURL "" = "https://crt.sh/?q=") :=
  ⟨⟨rfl, rfl, by decide, rfl⟩,
    claim_C7 heptioPattern noFingerprintEvent ["a.heptio.com"] rfl rfl
      (by decide) rfl⟩

/-- Claim C8: for every certificate_update event where extraction of the
all_domains list fails, the error is logged, the event is abandoned with
no notification, and the loop continues to the next event (the iteration
does not end in the fatal decode branch). -/
theorem claim_C8 (p : String → Bool) (ev : FeedEvent) (errs : List String)
    (hmt : ev.message_type.getD "" = "certificate_update")
    (hds : ev.leaf_cert.all_domains = none) :
    handleEvent p ev = Outcome.domainsFailed
    ∧ (handleEvent p ev).notifications = []
    ∧ (handleEvent p ev).logsError = true
    ∧ runIteration p (some ev) errs = StepResult.next [] 1 := by
  have heq : handleEvent p ev = Outcome.domainsFailed := by
    simp [handleEvent, hmt, hds]
  exact ⟨heq, by rw [heq]; rfl, by rw [heq]; rfl, by simp [runIteration, heq]⟩

/-- A certificate-update event whose all_domains lookup fails. -/
def malformedEvent : FeedEvent :=
  { message_type := some "certificate_update"
    leaf_cert := { all_domains := none, fingerprint := some "AA:BB" } }

theorem claim_C8_witness :
    (malformedEvent.message_type.getD "" = "certificate_update"
      ∧ malformedEvent.leaf_cert.all_domains = none)
    ∧ (handleEvent heptioPattern malformedEvent = Outcome.domainsFailed
      ∧ (handleEvent heptioPattern malformedEvent).notifications = []
      ∧ (handleEvent heptioPattern malformedEvent).logsError = true
      ∧ runIteration heptioPattern (some malformedEvent) ["timeout"] =
          StepResult.next [] 1) :=
  ⟨⟨rfl, rfl⟩, claim_C8 heptioPattern malformedEvent ["timeout"] rfl rfl⟩

/-- Claim C9: exactly four conditions are fatal: startup is fatal iff the
webhook URL is empty, the pattern is empty, the pattern fails to compile,
or the connection fails; inside the loop only a decode failure is fatal;
and a notification delivery failure is not fatal — the iteration still
completes, delivering the text and only logging the delivery errors. -/
theorem claim_C9 :
    (∀ (compile : String → Option (String → Bool)) (w dp : String) (c : Bool),
      ((startup compile w dp c).isFatal = true ↔
        (w = "" ∨ dp = "" ∨ compile dp = none ∨ c = false)))
    ∧ (∀ (p : String → Bool) (msg : Option FeedEvent) (errs : List String),
        (runIteration p msg errs = StepResult.fatalDecode ↔ msg = none))
    ∧ (∀ (p : String → Bool) (ev : FeedEvent) (text : String)
        (errs : List String),
        handleEvent p ev = Outcome.sent text false →
          runIteration p (some ev) errs =
            StepResult.next [text] errs.length) := by
  refine ⟨fun compile w dp c => ?_, fun p msg errs => ?_,
    fun p ev text errs h => ?_⟩
  · by_cases hw : w = ""
    · simp [startup, hw, StartupResult.isFatal]
    · by_cases hdp : dp = ""
      · simp [startup, hw, hdp, StartupResult.isFatal]
      · cases hc : compile dp with
        | none => simp [startup, hw, hdp, hc, StartupResult.isFatal]
        | some m =>
          cases c <;> simp [startup, hw, hdp, hc, StartupResult.isFatal]
  · cases msg with
    | none => simp [runIteration]
    | some ev => cases h : handleEvent p ev <;> simp [runIteration, h]
  · simp [runIteration, h]

/-- A regex compiler stub for the witness: rejects the pattern "(" the way
`regexp.Compile` does, accepts anything else as a trivial matcher. -/
def compileStub (pat : String) : Option (String → Bool) :=
  if pat = "(" then none else some (fun _ => false)

theorem claim_C9_witness :
    ((startup compileStub "https://hooks.slack.com/x" "heptio" true).isFatal =
        true ↔
      ("https://hooks.slack.com/x" = "" ∨ "heptio" = ""
        ∨ compileStub "heptio" = none ∨ true = false))
    ∧ (runIteration heptioPattern (some heartbeatEvent) [] =
          StepResult.fatalDecode ↔ (some heartbeatEvent : Option FeedEvent) = none)
    ∧ (handleEvent heptioPattern exampleEvent = Outcome.sent exampleText false
      ∧ runIteration heptioPattern (some exampleEvent) ["http 500"] =
          StepResult.next [exampleText] 1) :=
  ⟨claim_C9.1 compileStub "https://hooks.slack.com/x" "heptio" true,
    claim_C9.2.1 heptioPattern (some heartbeatEvent) [],
    by decide,
    claim_C9.2.2 heptioPattern exampleEvent exampleText ["http 500"]
      (by decide)⟩

/-- Claim C10: every notification sent contains at least one
backtick-decorated matched domain in its series: the series is the
nonempty sorted decorated matches (every entry of which is a decorated
matching domain of the event) followed at most by the "others" marker, so
it is never composed solely of the "others" marker. -/
theorem claim_C10 (p : String → Bool) (ev : FeedEvent) (text : String)
    (b : Bool) (h : handleEvent p ev = Outcome.sent text b) :
    ∃ ds, ev.leaf_cert.all_domains = some ds
      ∧ sortStrings (collectMatches p ds) ≠ []
      ∧ (∀ m ∈ sortStrings (collectMatches p ds),
          ∃ d, d ∈ ds ∧ p d = true ∧ m = decorate d)
      ∧ domainSeries p ds =
          sortStrings (collectMatches p ds) ++
            (if additionalCount p ds > 0 then
              [Nat.repr (additionalCount p ds) ++ " others"]
            else [])
      ∧ text = notificationText (domainSeries p ds) (extractFingerprint ev).1 := by
  by_cases hmt : ev.message_type.getD "" = "certificate_update"
  case neg => simp [handleEvent, hmt] at h
  cases hds : ev.leaf_cert.all_domains with
  | none => simp [handleEvent, hmt, hds] at h
  | some ds =>
    by_cases hcm : collectMatches p ds = []
    · simp [handleEvent, hmt, hds, hcm] at h
    · have heq := handleEvent_sent p ev ds hmt hds hcm
      rw [heq] at h
      have htext : text = notificationText (domainSeries p ds)
          (extractFingerprint ev).1 := by
        cases h
        rfl
      refine ⟨ds, rfl, ?_, ?_, domainSeries_eq p ds, htext⟩
      · intro hnil
        have hlen := (sortStrings_perm (collectMatches p ds)).length_eq
        rw [hnil] at hlen
        exact hcm (List.eq_nil_of_length_eq_zero hlen.symm)
      · intro m hmem
        exact mem_collectMatches p
          ((sortStrings_perm (collectMatches p ds)).mem_iff.mp hmem)

theorem claim_C10_witness :
    handleEvent heptioPattern exampleEvent = Outcome.sent exampleText false
    ∧ ∃ ds, exampleEvent.leaf_cert.all_domains = some ds
      ∧ sortStrings (collectMatches heptioPattern ds) ≠ []
      ∧ (∀ m ∈ sortStrings (collectMatches heptioPattern ds),
          ∃ d, d ∈ ds ∧ heptioPattern d = true ∧ m = decorate d)
      ∧ domainSeries heptioPattern ds =
          sortStrings (collectMatches heptioPattern ds) ++
            (if additionalCount heptioPattern ds > 0 then
              [Nat.repr (additionalCount heptioPattern ds) ++ " others"]
            else [])
      ∧ exampleText =
          notificationText (domainSeries heptioPattern ds)
            (extractFingerprint exampleEvent).1 :=
  ⟨by decide,
    claim_C10 heptioPattern exampleEvent exampleText false (by decide)⟩
